import Mathlib

/-!
Verification development for the deno-compat repository: a Deno
compatibility layer for Node.js and Bun.  The definitions below are a
shallow embedding of the two core source files,
src/deno-compat-node.ts (the process command adapter and global
installation) and src/deno-compat-bun.ts (the FFI type adapter and the
Bun installation path).  Bytes are modelled as natural numbers, JS
objects holding environment variables or FFI symbol tables as
association lists, and JS promises as an explicit settlement state
carrying a completion time.
-/

set_option autoImplicit false

/-- Helper modelling the JS method call userAgent.startsWith(s): a prefix
test on the character sequences of the two strings. -/
def strStartsWith (s pre : String) : Bool :=
  pre.data.isPrefixOf s.data

/-- Settlement state of a JS promise, with the completion time recorded for
the settled states.  A promise built by the adapter is pending until its
resolve or reject callback fires. -/
inductive FutureState (α : Type) where
  | pending : FutureState α
  | resolvedAt : Nat → α → FutureState α
  | rejectedAt : Nat → String → FutureState α
deriving DecidableEq

/-- Semantics of Promise.all on two promises: it settles with the pair once
both have resolved (so not before either of them), and it rejects as soon
as either input rejects. -/
def FutureState.all2 {α β : Type} : FutureState α → FutureState β → FutureState (α × β)
  | .rejectedAt t e, .rejectedAt u f => if u < t then .rejectedAt u f else .rejectedAt t e
  | .rejectedAt t e, _ => .rejectedAt t e
  | _, .rejectedAt u f => .rejectedAt u f
  | .pending, _ => .pending
  | _, .pending => .pending
  | .resolvedAt t a, .resolvedAt u b => .resolvedAt (max t u) (a, b)

/-- CommandStatus interface from deno-compat-node.ts (lines 32-36). -/
structure CommandStatus where
  success : Bool
  code : Int
  signal : Option String
deriving DecidableEq

/-- CommandOutput interface from deno-compat-node.ts (lines 38-44), with
the stdout and stderr byte buffers modelled as lists of naturals. -/
structure CommandOutput where
  success : Bool
  code : Int
  signal : Option String
  stdout : List Nat
  stderr : List Nat
deriving DecidableEq

/-- Options object accepted by the Command constructor
(deno-compat-node.ts lines 187-190); every field of the JS options object
is optional, so each is an Option. -/
structure CommandOptions where
  args : Option (List String) := none
  cwd : Option String := none
  env : Option (List (String × String)) := none
  stdin : Option String := none
  stdout : Option String := none
  stderr : Option String := none
deriving DecidableEq

/-- First stdio slot built by Command.spawn (deno-compat-node.ts lines
197-199): the ternary maps "piped" to "pipe" and otherwise evaluates
the JS expression (options.stdin or "inherit"), whose value is "inherit"
exactly when options.stdin is absent or the empty string (the falsy
cases) and is options.stdin itself otherwise.  Note there is no branch
mapping "null" to "ignore" in this slot. -/
def stdinSlot (m : Option String) : String :=
  match m with
  | some s => if s = "piped" then "pipe" else if s = "" then "inherit" else s
  | none => "inherit"

/-- Second stdio slot built by Command.spawn (deno-compat-node.ts lines
200-204): "piped" maps to "pipe", "null" maps to "ignore", and otherwise
the JS expression (options.stdout or "inherit") is evaluated. -/
def stdoutSlot (m : Option String) : String :=
  match m with
  | some s =>
    if s = "piped" then "pipe"
    else if s = "null" then "ignore"
    else if s = "" then "inherit" else s
  | none => "inherit"

/-- Third stdio slot built by Command.spawn (deno-compat-node.ts lines
205-209): same shape as the stdout slot. -/
def stderrSlot (m : Option String) : String :=
  match m with
  | some s =>
    if s = "piped" then "pipe"
    else if s = "null" then "ignore"
    else if s = "" then "inherit" else s
  | none => "inherit"

/-- JS assignment of one key into an object modelled as an association
list: replace the value if the key is present, append it otherwise. -/
def setKey : List (String × String) → String → String → List (String × String)
  | [], k, v => [(k, v)]
  | (k0, v0) :: rest, k, v =>
    if k0 = k then (k, v) :: rest else (k0, v0) :: setKey rest k v

/-- JS object spread of two objects, as in the source expression
building spawnOptions.env: start from a copy of the base object and
assign every key of the second object over it, later keys winning. -/
def objectSpread (base over : List (String × String)) : List (String × String) :=
  over.foldl (fun acc kv => setKey acc kv.1 kv.2) base

/-- JS property lookup on an object modelled as an association list. -/
def lookupEnv : List (String × String) → String → Option String
  | [], _ => none
  | (k0, v) :: rest, k => if k0 = k then some v else lookupEnv rest k

/-- Environment passed to the host spawn call (deno-compat-node.ts lines
217-219): only when the options carry an env object is spawnOptions.env
set, and then it is the spread of the current process environment with
the overrides on top. -/
def spawnEnv (procEnv : List (String × String)) (optEnv : Option (List (String × String))) :
    Option (List (String × String)) :=
  match optEnv with
  | some e => some (objectSpread procEnv e)
  | none => none

/-- Options object handed to the host spawn call by Command.spawn
(deno-compat-node.ts lines 195-219): the three stdio slots, the cwd when
the option is truthy, and the merged environment when an env object was
given. -/
structure SpawnOptions where
  stdio : List String
  cwd : Option String
  env : Option (List (String × String))
deriving DecidableEq

/-- Builds the spawnOptions value of Command.spawn from the constructor
options and the current process environment. -/
def mkSpawnOptions (procEnv : List (String × String)) (opts : CommandOptions) : SpawnOptions :=
  { stdio := [stdinSlot opts.stdin, stdoutSlot opts.stdout, stderrSlot opts.stderr]
  , cwd := match opts.cwd with
      | some c => if c = "" then none else some c
      | none => none
  , env := spawnEnv procEnv opts.env }

/-- Events emitted by a host child process after launch.  The source
attaches a listener only for the exit event (deno-compat-node.ts line
252); the Node host delivers launch failures such as a nonexistent
executable through a deferred error event, modelled by errorEv. -/
inductive ChildEvent where
  | exitEv (code : Option Int) (signal : Option String)
  | errorEv (msg : String)
  | otherEv (nm : String)
deriving DecidableEq

/-- Boolean test for the presence of an exit event in an event trace. -/
def hasExitEvent : List ChildEvent → Bool
  | [] => false
  | ChildEvent.exitEv _ _ :: _ => true
  | _ :: rest => hasExitEvent rest

/-- Handle returned by the host spawn primitive: presence of the stdin
handle, the stdout and stderr pipe handles with the chunk sequences the
child writes to them (none when the slot is not a pipe), the event trace
the child emits, and the time at which the stdout stream is fully
drained. -/
structure Child where
  stdinPresent : Bool
  stdoutChunks : Option (List (List Nat))
  stderrChunks : Option (List (List Nat))
  events : List ChildEvent
  stdoutDoneAt : Nat
deriving DecidableEq

/-- Host spawn primitive (the imported node child_process spawn): given
the command, argument list and spawn options it either throws
synchronously or returns a child handle. -/
def HostSpawn : Type :=
  String → List String → SpawnOptions → Except String Child

/-- ExitStatus value resolved by the status promise (deno-compat-node.ts
lines 253-257): success is the strict equality (code === 0), the code
field is the JS expression (code or 0) which yields 0 for a null or zero
code, and the signal field is (signal or null) which yields null for an
absent or empty signal. -/
def mkStatus (code : Option Int) (signal : Option String) : CommandStatus :=
  { success := match code with
      | some c => decide (c = 0)
      | none => false
  , code := match code with
      | none => 0
      | some c => if c = 0 then 0 else c
  , signal := match signal with
      | none => none
      | some s => if s = "" then none else some s }

/-- State of the status promise after the child has emitted the given
event trace, scanning from the given time index.  The promise executor
registers only a resolve callback on the exit event (deno-compat-node.ts
lines 251-259), so the promise resolves at the first exit event and is
otherwise pending; no event can reject it. -/
def statusFutureAux : Nat → List ChildEvent → FutureState CommandStatus
  | _, [] => .pending
  | t, e :: rest =>
    match e with
    | .exitEv c s => .resolvedAt t (mkStatus c s)
    | _ => statusFutureAux (t + 1) rest

/-- State of the status promise of a spawned process over a full event
trace. -/
def statusFuture (events : List ChildEvent) : FutureState CommandStatus :=
  statusFutureAux 0 events

/-- Value produced by the output closure of the spawn result
(deno-compat-node.ts lines 260-268): when the child has a stdout handle
its chunks are concatenated into one buffer, and otherwise the chunk
list stays empty and the empty buffer is returned. -/
def outputClosure (stdoutH : Option (List (List Nat))) : List Nat :=
  match stdoutH with
  | some chunks => chunks.flatten
  | none => []

/-- SpawnedProcess value returned by Command.spawn (deno-compat-node.ts
lines 247-269): the stdin wrapper presence mirrors the child stdin
handle, the raw stdout and stderr handles are passed through, the status
promise scans the child event trace, and the output accumulator promise
resolves with the concatenated stdout bytes once the stream is
drained. -/
structure SpawnedProcess where
  stdinW : Bool
  stdoutH : Option (List (List Nat))
  stderrH : Option (List (List Nat))
  statusF : FutureState CommandStatus
  outputF : FutureState (List Nat)
deriving DecidableEq

/-- Command.spawn (deno-compat-node.ts lines 192-270): defaults the
argument list, builds the spawn options, calls the host spawn primitive
and, when the launch call returns, assembles the SpawnedProcess value.
A synchronous host exception propagates out of spawn before any part of
the result, in particular the status promise, is created. -/
def Command.spawnE (host : HostSpawn) (procEnv : List (String × String))
    (cmd : String) (opts : CommandOptions) : Except String SpawnedProcess :=
  match host cmd (opts.args.getD []) (mkSpawnOptions procEnv opts) with
  | .error e => .error e
  | .ok child =>
    .ok { stdinW := child.stdinPresent
        , stdoutH := child.stdoutChunks
        , stderrH := child.stderrChunks
        , statusF := statusFuture child.events
        , outputF := .resolvedAt child.stdoutDoneAt (outputClosure child.stdoutChunks) }

/-- Combined result of Command.output over an already spawned process
(deno-compat-node.ts lines 272-285): Promise.all over the status promise
and the stdout accumulator, then the combined record with an empty
stderr buffer. -/
def commandOutputF (p : SpawnedProcess) : FutureState CommandOutput :=
  match p.statusF.all2 p.outputF with
  | .resolvedAt t (st, out) =>
    .resolvedAt t
      { success := st.success, code := st.code, signal := st.signal
      , stdout := out, stderr := [] }
  | .pending => .pending
  | .rejectedAt t e => .rejectedAt t e

/-- Command.output (deno-compat-node.ts lines 272-285): spawns and then
awaits both the status promise and the stdout accumulator. -/
def Command.outputE (host : HostSpawn) (procEnv : List (String × String))
    (cmd : String) (opts : CommandOptions) : Except String (FutureState CommandOutput) :=
  match Command.spawnE host procEnv cmd opts with
  | .error e => .error e
  | .ok p => .ok (commandOutputF p)

/-- Possible values bound under the global name Deno: the native runtime
binding, the base Node adapter class DenoCompat, or the Bun adapter
class BunDenoCompat. -/
inductive Adapter where
  | native
  | nodeCompat
  | bunCompat
deriving DecidableEq

/-- Install step of deno-compat-node.ts (lines 290-292): the adapter is
assigned to the global name only when that name is currently
undefined. -/
def nodeInstall (g : Option Adapter) : Option Adapter :=
  match g with
  | none => some .nodeCompat
  | some a => some a

/-- Load of deno-compat-bun.ts applied to the global binding: the import
of deno-compat-node.ts at the top of the file runs the Node install step
first, and then (lines 10 and 126-128) whenever the userAgent starts
with Bun the Bun adapter is assigned to the global name with no check of
the current binding. -/
def bunInstall (userAgent : String) (g : Option Adapter) : Option Adapter :=
  let g1 := nodeInstall g
  if strStartsWith userAgent "Bun" then some .bunCompat else g1

/-- Host FFI type handles used by deno-compat-bun.ts: the members of the
Bun FFIType object that the switch in transformFFIType returns. -/
inductive FFIType where
  | void
  | bool
  | u8
  | i8
  | u16
  | i16
  | u32
  | i32
  | u64
  | i64
  | f32
  | f64
  | ptr
  | function
deriving DecidableEq

/-- The fixed tag enumeration handled by the switch in transformFFIType
(deno-compat-bun.ts lines 14-52). -/
def ffiTags : List String :=
  ["void", "bool", "u8", "i8", "u16", "i16", "u32", "i32", "u64", "i64",
   "usize", "isize", "f32", "f64", "pointer", "buffer", "function"]

/-- BunDenoCompat.transformFFIType (deno-compat-bun.ts lines 14-52): the
switch over the tag string, with the default case throwing an error
naming the unsupported tag. -/
def transformFFIType (denoType : String) : Except String FFIType :=
  if denoType = "void" then .ok .void
  else if denoType = "bool" then .ok .bool
  else if denoType = "u8" then .ok .u8
  else if denoType = "i8" then .ok .i8
  else if denoType = "u16" then .ok .u16
  else if denoType = "i16" then .ok .i16
  else if denoType = "u32" then .ok .u32
  else if denoType = "i32" then .ok .i32
  else if denoType = "u64" then .ok .u64
  else if denoType = "i64" then .ok .i64
  else if denoType = "usize" then .ok .u64
  else if denoType = "isize" then .ok .i64
  else if denoType = "f32" then .ok .f32
  else if denoType = "f64" then .ok .f64
  else if denoType = "pointer" then .ok .ptr
  else if denoType = "buffer" then .ok .ptr
  else if denoType = "function" then .ok .function
  else .error ("FFI type not supported: " ++ denoType)

/-- One entry of the symbols map passed to dlopen: an optional value
under the key named type (present exactly when the JS object carries
that key), the parameter tag list and the result tag. -/
structure SymbolSpec where
  typeKey : Option String
  parameters : List String
  result : String
deriving DecidableEq

/-- One entry of the Bun symbol table built by dlopen: the translated
argument types and the translated return type. -/
structure BunSymbol where
  args : List FFIType
  returns : FFIType
deriving DecidableEq

/-- The JS map call symbol.parameters.map(transformFFIType), with the
first thrown error aborting the whole call. -/
def transformParams : List String → Except String (List FFIType)
  | [] => .ok []
  | p :: rest =>
    match transformFFIType p with
    | .error e => .error e
    | .ok a =>
      match transformParams rest with
      | .error e => .error e
      | .ok tl => .ok (a :: tl)

/-- Loop body of BunDenoCompat.dlopen (deno-compat-bun.ts lines 55-69):
walks the entries of the symbols map in order, throws on the first entry
carrying a type key, and otherwise translates the parameter and result
tags into a Bun symbol table entry. -/
def buildBunSymbols : List (String × SymbolSpec) → Except String (List (String × BunSymbol))
  | [] => .ok []
  | (name, symbol) :: rest =>
    if symbol.typeKey.isSome then
      .error "Symbol type notation not supported"
    else
      match transformParams symbol.parameters with
      | .error e => .error e
      | .ok args =>
        match transformFFIType symbol.result with
        | .error e => .error e
        | .ok ret =>
          match buildBunSymbols rest with
          | .error e => .error e
          | .ok tail => .ok ((name, { args := args, returns := ret }) :: tail)

/-- BunDenoCompat.dlopen (deno-compat-bun.ts lines 54-73): builds the Bun
symbol table and, only when that loop completed without throwing, calls
the host dlopen primitive and returns its library handle unmodified.
The host primitive is a parameter so that theorems can express that a
throwing loop never reaches it. -/
def dlopenBun {L : Type} (host : String → List (String × BunSymbol) → L)
    (path : String) (symbols : List (String × SymbolSpec)) : Except String L :=
  match buildBunSymbols symbols with
  | .error e => .error e
  | .ok bunSymbols => .ok (host path bunSymbols)

/-- Relation between one source symbol entry and one built table entry:
same name, parameters translated pointwise through transformFFIType and
the result translated through transformFFIType. -/
def symRel (ns : String × SymbolSpec) (nb : String × BunSymbol) : Prop :=
  ns.1 = nb.1 ∧
  List.Forall₂ (fun t a => transformFFIType t = .ok a) ns.2.parameters nb.2.args ∧
  transformFFIType ns.2.result = .ok nb.2.returns

/-- Bit length of a natural number, computed with a structural fuel
argument (the number itself bounds its own bit length) so that concrete
values reduce in the kernel. -/
def bitLenAux : Nat → Nat → Nat
  | 0, _ => 0
  | fuel + 1, n => if n = 0 then 0 else bitLenAux fuel (n / 2) + 1

/-- Bit length of a natural number. -/
def bitLen (n : Nat) : Nat :=
  bitLenAux n n

/-- The JS Number coercion of a nonnegative integer address: the value
of the IEEE-754 double nearest to the integer, with ties broken to the
even significand.  Integers below 2^53 fit the 53-bit significand
exactly and are unchanged; a wider integer is rounded at its low
(bitLen - 53) bits and so loses them, e.g. 2^53 + 1 becomes 2^53. -/
def numberOfNat (n : Nat) : Nat :=
  if n < 2 ^ 53 then n
  else
    let e := bitLen n - 53
    let q := n / 2 ^ e
    let r := n % 2 ^ e
    let half := 2 ^ (e - 1)
    let q2 := if half < r then q + 1
      else if r < half then q
      else if q % 2 = 0 then q else q + 1
    q2 * 2 ^ e

/-- BunDenoCompat.UnsafePointer.create (deno-compat-bun.ts lines
111-113): the Number coercion of the given address, which rounds wide
integer addresses to the nearest double value. -/
def UnsafePointer.create (value : Nat) : Nat :=
  numberOfNat value

/-- BunDenoCompat.UnsafePointer.equals (deno-compat-bun.ts lines
107-109): strict equality of the two pointer values, which on numbers is
value equality. -/
def UnsafePointer.equals (a b : Nat) : Bool :=
  a == b

/-- BunDenoCompat.UnsafePointer.value (deno-compat-bun.ts lines
120-122): returns the pointer value itself. -/
def UnsafePointer.value (pointer : Nat) : Nat :=
  pointer

/-- Concrete child handle modelling what the Node host returns when the
executable does not exist: no stdio handles and a single deferred error
event; the Node host documents that spawn does not throw in this case
and instead emits the error event asynchronously. -/
def enoentChild : Child :=
  { stdinPresent := false
  , stdoutChunks := none
  , stderrChunks := none
  , events := [.errorEv "spawn nonexistent ENOENT"]
  , stdoutDoneAt := 0 }

/-- Concrete host spawn primitive behaving as the Node host does for a
nonexistent executable name: the launch call itself returns a child
handle and the failure is only ever reported through the deferred error
event carried by that handle. -/
def enoentHost : HostSpawn :=
  fun _ _ _ => .ok enoentChild

/-! ## Helper lemmas -/

/-- Every tag of the fixed enumeration is accepted by the switch. -/
theorem transformFFIType_ok_of_mem (t : String) (ht : t ∈ ffiTags) :
    ∃ h, transformFFIType t = .ok h := by
  fin_cases ht <;> exact ⟨_, rfl⟩

/-- Every tag outside the fixed enumeration reaches the default case of
the switch, which throws the error naming the tag. -/
theorem transformFFIType_error_of_not_mem (t : String) (ht : t ∉ ffiTags) :
    transformFFIType t = .error ("FFI type not supported: " ++ t) := by
  simp only [ffiTags, List.mem_cons, List.not_mem_nil, or_false] at ht
  push_neg at ht
  obtain ⟨h1, h2, h3, h4, h5, h6, h7, h8, h9, h10, h11, h12, h13, h14, h15, h16, h17⟩ := ht
  simp [transformFFIType, h1, h2, h3, h4, h5, h6, h7, h8, h9, h10,
        h11, h12, h13, h14, h15, h16, h17]

/-! ## Claim theorems -/

/-- Claim C4: the stdio translation of Command.spawn maps, for each of
the three streams, "piped" to the host pipe slot and an absent or
"inherit" mode to the host inherit slot; for stdout and stderr the
"null" mode maps to the host discard slot "ignore", but for stdin the
"null" mode is passed through as the literal string "null", which is not
the host discard token — the branch present for the other two slots is
missing, so the claim fails on the stdin stream. -/
theorem stdio_translation_table :
    stdinSlot none = "inherit" ∧
    stdinSlot (some "inherit") = "inherit" ∧
    stdinSlot (some "piped") = "pipe" ∧
    stdoutSlot none = "inherit" ∧
    stdoutSlot (some "inherit") = "inherit" ∧
    stdoutSlot (some "piped") = "pipe" ∧
    stdoutSlot (some "null") = "ignore" ∧
    stderrSlot none = "inherit" ∧
    stderrSlot (some "inherit") = "inherit" ∧
    stderrSlot (some "piped") = "pipe" ∧
    stderrSlot (some "null") = "ignore" ∧
    stdinSlot (some "null") = "null" ∧
    stdinSlot (some "null") ≠ "ignore" := by
  decide

/-- Claim C9, corrected: UnsafePointer.equals is value equality on the
created pointers, so two pointers created from the same address are
always equal; for distinct addresses that are exactly representable as
JS numbers (below 2^53) the created pointers are distinct and
UnsafePointer.value recovers the address, but for wider addresses the
Number coercion inside create is lossy, so the distinctness and
recovery clauses hold only on the exactly representable range. -/
theorem unsafePointer_equality_exact_range (n m : Nat) :
    UnsafePointer.equals (UnsafePointer.create n) (UnsafePointer.create n) = true ∧
    (n < 2 ^ 53 → m < 2 ^ 53 → n ≠ m →
      UnsafePointer.equals (UnsafePointer.create n) (UnsafePointer.create m) = false) ∧
    (n < 2 ^ 53 → UnsafePointer.value (UnsafePointer.create n) = n) := by
  refine ⟨?_, ?_, ?_⟩
  · simp [UnsafePointer.equals]
  · intro hn hm hne
    simp only [UnsafePointer.equals, UnsafePointer.create, numberOfNat, if_pos hn, if_pos hm]
    simpa using hne
  · intro hn
    simp only [UnsafePointer.value, UnsafePointer.create, numberOfNat, if_pos hn]

/-- Witness for claim C9 at the addresses of the spec scenario, 0x1000
and 0x1001, both exactly representable. -/
theorem unsafePointer_equality_exact_range_w :
    UnsafePointer.equals (UnsafePointer.create 4096) (UnsafePointer.create 4096) = true ∧
    UnsafePointer.equals (UnsafePointer.create 4096) (UnsafePointer.create 4097) = false ∧
    UnsafePointer.value (UnsafePointer.create 4096) = 4096 :=
  ⟨(unsafePointer_equality_exact_range 4096 4097).1,
   (unsafePointer_equality_exact_range 4096 4097).2.1 (by decide) (by decide) (by decide),
   (unsafePointer_equality_exact_range 4096 4097).2.2 (by decide)⟩

/-- Counterexample for claim C9 as stated: the Number coercion inside
create rounds wide integer addresses to the nearest double, so the
distinct addresses 2^53 and 2^53 + 1 create colliding pointers — equals
returns true for this pair of distinct addresses — and value does not
recover 2^53 + 1 from its created pointer. -/
theorem unsafePointer_create_lossy :
    UnsafePointer.equals (UnsafePointer.create (2 ^ 53))
      (UnsafePointer.create (2 ^ 53 + 1)) = true ∧
    (2 ^ 53 : Nat) ≠ 2 ^ 53 + 1 ∧
    UnsafePointer.value (UnsafePointer.create (2 ^ 53 + 1)) ≠ 2 ^ 53 + 1 := by
  refine ⟨by decide, by decide, by decide⟩

/-- Claim C2, corrected: the Node load path binds the adapter under the
global name exactly when that name is unbound and never overwrites an
existing binding, but the Bun load path assigns the Bun adapter
unconditionally whenever the userAgent starts with Bun, overwriting
whatever binding exists; when the userAgent does not start with Bun the
Bun module leaves only the effect of the Node install step it
imports. -/
theorem global_install_guard :
    nodeInstall none = some Adapter.nodeCompat ∧
    (∀ a, nodeInstall (some a) = some a) ∧
    (∀ ua g, strStartsWith ua "Bun" = true → bunInstall ua g = some Adapter.bunCompat) ∧
    (∀ ua g, strStartsWith ua "Bun" = false → bunInstall ua g = nodeInstall g) := by
  refine ⟨rfl, fun a => rfl, ?_, ?_⟩
  · intro ua g h
    simp [bunInstall, h]
  · intro ua g h
    simp [bunInstall, h]

/-- Witness for claim C2: the guard of the Node step at an existing
binding, the unconditional Bun assignment at a Bun userAgent, and the
no-op of the Bun branch at a Node userAgent. -/
theorem global_install_guard_w :
    nodeInstall (some Adapter.native) = some Adapter.native ∧
    bunInstall "Bun/1.2.0" none = some Adapter.bunCompat ∧
    bunInstall "Node.js/20" none = nodeInstall none :=
  ⟨global_install_guard.2.1 Adapter.native,
   global_install_guard.2.2.1 "Bun/1.2.0" none (by decide),
   global_install_guard.2.2.2 "Node.js/20" none (by decide)⟩

/-- Counterexample for claim C2 as stated: on the Bun load path the
assignment is not guarded by the current binding, so a process in which
the global name is already bound (here to the native runtime, and in the
ordinary Bun flow to the base adapter that the imported Node module just
installed) ends up with its binding overwritten by the Bun adapter. -/
theorem bun_install_overwrites :
    bunInstall "Bun/1.2.0" (some Adapter.native) = some Adapter.bunCompat ∧
    some Adapter.native ≠ some Adapter.bunCompat ∧
    nodeInstall none = some Adapter.nodeCompat ∧
    bunInstall "Bun/1.2.0" none = some Adapter.bunCompat ∧
    some Adapter.nodeCompat ≠ some Adapter.bunCompat := by
  decide

/-- Claim C5: under the host exit-event contract (exactly one of the
code and the signal is present, a reported signal name being nonempty),
the resolved status has success true exactly when the code is zero and
the status carries no signal, its code field is the reported code with 0
substituted for a signal-only termination, and its signal field is the
reported signal or null when absent. -/
theorem exit_status_fields (code : Option Int) (signal : Option String)
    (h : ((∃ c, code = some c) ∧ signal = none) ∨
         (code = none ∧ ∃ s, signal = some s ∧ s ≠ "")) :
    ((mkStatus code signal).success = true ↔
      (code = some 0 ∧ (mkStatus code signal).signal = none)) ∧
    (mkStatus code signal).code = code.getD 0 ∧
    (mkStatus code signal).signal = signal := by
  rcases h with ⟨⟨c, rfl⟩, rfl⟩ | ⟨rfl, s, rfl, hs⟩
  · refine ⟨?_, ?_, rfl⟩
    · simp [mkStatus]
    · simp only [mkStatus, Option.getD_some]
      split_ifs with hc
      · omega
      · rfl
  · refine ⟨?_, rfl, ?_⟩
    · simp [mkStatus, hs]
    · simp [mkStatus, hs]

/-- Witness for claim C5 at a normal zero exit and at a signal-only
termination. -/
theorem exit_status_fields_w :
    ((mkStatus (some 0) none).success = true ↔
      (some (0 : Int) = some 0 ∧ (mkStatus (some 0) none).signal = none)) ∧
    (mkStatus (some 0) none).code = (some (0 : Int)).getD 0 ∧
    (mkStatus (some 0) none).signal = none ∧
    ((mkStatus none (some "SIGKILL")).success = true ↔
      ((none : Option Int) = some 0 ∧ (mkStatus none (some "SIGKILL")).signal = none)) ∧
    (mkStatus none (some "SIGKILL")).code = (none : Option Int).getD 0 ∧
    (mkStatus none (some "SIGKILL")).signal = some "SIGKILL" := by
  have h1 := exit_status_fields (some 0) none (Or.inl ⟨⟨0, rfl⟩, rfl⟩)
  have h2 := exit_status_fields none (some "SIGKILL")
    (Or.inr ⟨rfl, "SIGKILL", rfl, by decide⟩)
  exact ⟨h1.1, h1.2.1, h1.2.2, h2.1, h2.2.1, h2.2.2⟩

/-- Claim C6: transformFFIType returns a host type handle for every tag
of the fixed enumeration (it is a function, hence deterministic), and
for every tag outside the enumeration it throws the error naming the
unsupported tag rather than returning any handle. -/
theorem transformFFIType_total :
    (∀ tag, tag ∈ ffiTags → ∃ h, transformFFIType tag = .ok h) ∧
    (∀ tag, tag ∉ ffiTags →
      transformFFIType tag = .error ("FFI type not supported: " ++ tag)) :=
  ⟨transformFFIType_ok_of_mem, transformFFIType_error_of_not_mem⟩

/-- Witness for claim C6 at a supported tag and an unsupported tag. -/
theorem transformFFIType_total_w :
    (∃ h, transformFFIType "i32" = .ok h) ∧
    transformFFIType "i128" = .error ("FFI type not supported: " ++ "i128") :=
  ⟨transformFFIType_total.1 "i32" (by decide),
   transformFFIType_total.2 "i128" (by decide)⟩

/-- The status promise scan never produces a rejection, from any start
index: the executor passes only a resolve callback to the exit
listener. -/
theorem statusFutureAux_ne_rejected :
    ∀ (n : Nat) (events : List ChildEvent) (t : Nat) (msg : String),
      statusFutureAux n events ≠ .rejectedAt t msg
  | _, [], _, _ => by simp [statusFutureAux]
  | n, e :: rest, t, msg => by
    cases e with
    | exitEv c s => simp [statusFutureAux]
    | errorEv m =>
      simpa [statusFutureAux] using statusFutureAux_ne_rejected (n + 1) rest t msg
    | otherEv m =>
      simpa [statusFutureAux] using statusFutureAux_ne_rejected (n + 1) rest t msg

/-- Without an exit event in the trace the status promise scan stays
pending, from any start index: error and close events are ignored by the
executor. -/
theorem statusFutureAux_pending :
    ∀ (n : Nat) (events : List ChildEvent),
      hasExitEvent events = false → statusFutureAux n events = .pending
  | _, [], _ => rfl
  | n, e :: rest, h => by
    cases e with
    | exitEv c s => simp [hasExitEvent] at h
    | errorEv m =>
      simpa [statusFutureAux] using
        statusFutureAux_pending (n + 1) rest (by simpa [hasExitEvent] using h)
    | otherEv m =>
      simpa [statusFutureAux] using
        statusFutureAux_pending (n + 1) rest (by simpa [hasExitEvent] using h)

/-- Claim C1, corrected: a launch failure that the host spawn call
reports synchronously propagates as the exception of spawn itself, and
in that case no SpawnedProcess and no status promise is created; in
every other case the status promise has no rejection path at all — it
never rejects, and without an exit event it stays pending — so a launch
failure reported through the deferred error event of the Node host is
never delivered on the status future. -/
theorem spawn_launch_failure_propagation :
    (∀ (host : HostSpawn) (procEnv : List (String × String)) (cmd : String)
        (opts : CommandOptions) (err : String),
        host cmd (opts.args.getD []) (mkSpawnOptions procEnv opts) = .error err →
        Command.spawnE host procEnv cmd opts = .error err) ∧
    (∀ (events : List ChildEvent) (t : Nat) (msg : String),
        statusFuture events ≠ .rejectedAt t msg) ∧
    (∀ events, hasExitEvent events = false → statusFuture events = .pending) := by
  refine ⟨?_, ?_, ?_⟩
  · intro host procEnv cmd opts err h
    simp [Command.spawnE, h]
  · intro events t msg
    exact statusFutureAux_ne_rejected 0 events t msg
  · intro events h
    exact statusFutureAux_pending 0 events h

/-- Witness for claim C1: a host that throws synchronously makes spawn
itself throw that error, and the event trace of a deferred launch
failure neither rejects nor resolves the status promise. -/
theorem spawn_launch_failure_propagation_w :
    Command.spawnE (fun _ _ _ => .error "spawn ENOENT") [] "nonexistent" {} =
      .error "spawn ENOENT" ∧
    statusFuture [ChildEvent.errorEv "spawn ENOENT"] ≠ .rejectedAt 0 "spawn ENOENT" ∧
    statusFuture [ChildEvent.errorEv "spawn ENOENT"] = .pending :=
  ⟨spawn_launch_failure_propagation.1 (fun _ _ _ => .error "spawn ENOENT")
      [] "nonexistent" {} "spawn ENOENT" rfl,
   spawn_launch_failure_propagation.2.1 [ChildEvent.errorEv "spawn ENOENT"] 0 "spawn ENOENT",
   spawn_launch_failure_propagation.2.2 [ChildEvent.errorEv "spawn ENOENT"] rfl⟩

/-- Counterexample for claim C1 as stated: with the host behaving as the
Node host does for a nonexistent executable name — the spawn call
returns a child handle and reports the failure only through a deferred
error event — Command.spawn does not throw: it returns a SpawnedProcess,
and the status future is created and left pending, so the launch failure
observably surfaces neither synchronously from spawn nor on the status
future. -/
theorem spawn_nonexistent_returns_handle :
    Command.spawnE enoentHost [] "nonexistent" {} =
      .ok { stdinW := false
          , stdoutH := none
          , stderrH := none
          , statusF := .pending
          , outputF := .resolvedAt 0 [] } := rfl

/-- Claim C3: Command.output spawns, awaits both the status promise and
the stdout accumulator — its result settles at the later of their two
completion times, whichever order they complete in — and returns the
combined record of success flag, code, signal, the collected stdout
bytes and an empty stderr buffer, whatever stderr mode the options
carry. -/
theorem command_output_awaits_both (host : HostSpawn)
    (procEnv : List (String × String)) (cmd : String) (opts : CommandOptions)
    (child : Child) (t : Nat) (st : CommandStatus)
    (hhost : host cmd (opts.args.getD []) (mkSpawnOptions procEnv opts) = .ok child)
    (hexit : statusFuture child.events = .resolvedAt t st) :
    Command.outputE host procEnv cmd opts =
      .ok (.resolvedAt (max t child.stdoutDoneAt)
        { success := st.success, code := st.code, signal := st.signal
        , stdout := outputClosure child.stdoutChunks, stderr := [] }) := by
  simp [Command.outputE, Command.spawnE, hhost, commandOutputF, hexit, FutureState.all2]

/-- Witness for claim C3: a child that exits with code 0 at time 0 while
its piped stdout drains only at time 5, under options that set the
stderr mode to piped; the combined result still has an empty stderr
buffer and settles at time 5, after both futures. -/
theorem command_output_awaits_both_w :
    Command.outputE
      (fun _ _ _ => .ok { stdinPresent := false
                        , stdoutChunks := some [[104, 105], [10]]
                        , stderrChunks := some [[101]]
                        , events := [.exitEv (some 0) none]
                        , stdoutDoneAt := 5 })
      [] "echo" { stdout := some "piped", stderr := some "piped" } =
      .ok (.resolvedAt (max 0 5)
        { success := true, code := 0, signal := none
        , stdout := outputClosure (some [[104, 105], [10]]), stderr := [] }) :=
  command_output_awaits_both
    (fun _ _ _ => .ok { stdinPresent := false
                      , stdoutChunks := some [[104, 105], [10]]
                      , stderrChunks := some [[101]]
                      , events := [.exitEv (some 0) none]
                      , stdoutDoneAt := 5 })
    [] "echo" { stdout := some "piped", stderr := some "piped" }
    { stdinPresent := false
    , stdoutChunks := some [[104, 105], [10]]
    , stderrChunks := some [[101]]
    , events := [.exitEv (some 0) none]
    , stdoutDoneAt := 5 }
    0 { success := true, code := 0, signal := none } rfl rfl

/-- Claim C10: when the stdout mode of the options is absent, "null" or
"inherit" — every mode other than "piped" — the stdio slot handed to the
host is not a pipe, so the child carries no stdout handle, and the
output accumulator of the spawned process still resolves successfully,
with the empty byte buffer. -/
theorem output_empty_when_not_piped (host : HostSpawn)
    (procEnv : List (String × String)) (cmd : String) (opts : CommandOptions)
    (child : Child)
    (hhost : host cmd (opts.args.getD []) (mkSpawnOptions procEnv opts) = .ok child)
    (hmode : opts.stdout = none ∨ opts.stdout = some "null" ∨ opts.stdout = some "inherit")
    (hhandle : child.stdoutChunks.isSome = (stdoutSlot opts.stdout == "pipe")) :
    Command.spawnE host procEnv cmd opts =
      .ok { stdinW := child.stdinPresent
          , stdoutH := child.stdoutChunks
          , stderrH := child.stderrChunks
          , statusF := statusFuture child.events
          , outputF := .resolvedAt child.stdoutDoneAt [] } := by
  have hslot : (stdoutSlot opts.stdout == "pipe") = false := by
    rcases hmode with h | h | h <;> rw [h] <;> decide
  rw [hslot] at hhandle
  have hnone : child.stdoutChunks = none := by
    cases hc : child.stdoutChunks with
    | none => rfl
    | some v => rw [hc] at hhandle; simp at hhandle
  simp [Command.spawnE, hhost, outputClosure, hnone]

/-- Witness for claim C10: a host whose child has no stdout handle under
an inherit stdout mode; the output accumulator resolves with the empty
buffer. -/
theorem output_empty_when_not_piped_w :
    Command.spawnE
      (fun _ _ _ => .ok { stdinPresent := false
                        , stdoutChunks := none
                        , stderrChunks := none
                        , events := [.exitEv (some 0) none]
                        , stdoutDoneAt := 3 })
      [] "ls" { stdout := some "inherit" } =
      .ok { stdinW := false
          , stdoutH := none
          , stderrH := none
          , statusF := statusFuture [.exitEv (some 0) none]
          , outputF := .resolvedAt 3 [] } :=
  output_empty_when_not_piped
    (fun _ _ _ => .ok { stdinPresent := false
                      , stdoutChunks := none
                      , stderrChunks := none
                      , events := [.exitEv (some 0) none]
                      , stdoutDoneAt := 3 })
    [] "ls" { stdout := some "inherit" }
    { stdinPresent := false
    , stdoutChunks := none
    , stderrChunks := none
    , events := [.exitEv (some 0) none]
    , stdoutDoneAt := 3 }
    rfl (Or.inr (Or.inr rfl)) (by decide)

/-- When some entry of the symbols map carries a type key, the dlopen
loop throws: either at that entry, or already at an earlier entry whose
tags fail to translate. -/
theorem buildBunSymbols_error_of_typeKey :
    ∀ (symbols : List (String × SymbolSpec)),
      (∃ p ∈ symbols, p.2.typeKey.isSome = true) →
      ∃ msg, buildBunSymbols symbols = .error msg
  | [], h => absurd h (by simp)
  | (name, symbol) :: rest, h => by
    by_cases hk : symbol.typeKey.isSome = true
    · exact ⟨"Symbol type notation not supported", by simp [buildBunSymbols, hk]⟩
    · have hrest : ∃ p ∈ rest, p.2.typeKey.isSome = true := by
        rcases h with ⟨p, hp, hps⟩
        rcases List.mem_cons.mp hp with rfl | hmem
        · exact absurd hps hk
        · exact ⟨p, hmem, hps⟩
      obtain ⟨msg, hmsg⟩ := buildBunSymbols_error_of_typeKey rest hrest
      simp only [buildBunSymbols, hk, if_false, Bool.false_eq_true]
      cases hp : transformParams symbol.parameters with
      | error e => exact ⟨e, by simp⟩
      | ok args =>
        cases hr : transformFFIType symbol.result with
        | error e => exact ⟨e, by simp⟩
        | ok ret => exact ⟨msg, by simp [hmsg]⟩

/-- When every tag of a parameter list lies in the fixed enumeration,
the map over transformFFIType succeeds and relates the tags to the
translated types pointwise. -/
theorem transformParams_ok_of_mem :
    ∀ (ps : List String), (∀ p ∈ ps, p ∈ ffiTags) →
      ∃ args, transformParams ps = .ok args ∧
        List.Forall₂ (fun t a => transformFFIType t = .ok a) ps args
  | [], _ => ⟨[], rfl, List.Forall₂.nil⟩
  | p :: rest, h => by
    obtain ⟨a, ha⟩ := transformFFIType_ok_of_mem p (h p (by simp))
    obtain ⟨tl, htl, hf⟩ := transformParams_ok_of_mem rest (fun q hq => h q (by simp [hq]))
    exact ⟨a :: tl, by simp [transformParams, ha, htl], List.Forall₂.cons ha hf⟩

/-- When no entry of the symbols map carries a type key and every tag
lies in the fixed enumeration, the dlopen loop builds the Bun symbol
table by translating every entry pointwise. -/
theorem buildBunSymbols_ok_of_clean :
    ∀ (symbols : List (String × SymbolSpec)),
      (∀ p ∈ symbols, p.2.typeKey = none ∧
        (∀ t ∈ p.2.parameters, t ∈ ffiTags) ∧ p.2.result ∈ ffiTags) →
      ∃ table, buildBunSymbols symbols = .ok table ∧ List.Forall₂ symRel symbols table
  | [], _ => ⟨[], rfl, List.Forall₂.nil⟩
  | (name, symbol) :: rest, h => by
    obtain ⟨hk, hps, hr⟩ := h (name, symbol) (by simp)
    have hk2 : symbol.typeKey = none := hk
    obtain ⟨args, hargs, hfa⟩ := transformParams_ok_of_mem symbol.parameters hps
    obtain ⟨ret, hret⟩ := transformFFIType_ok_of_mem symbol.result hr
    obtain ⟨tail, htail, hft⟩ :=
      buildBunSymbols_ok_of_clean rest (fun p hp => h p (by simp [hp]))
    refine ⟨(name, { args := args, returns := ret }) :: tail, ?_, ?_⟩
    · simp [buildBunSymbols, hk2, hargs, hret, htail]
    · exact List.Forall₂.cons ⟨rfl, hfa, hret⟩ hft

/-- When some entry of the symbols map carries a type key and every
entry without one translates cleanly, the dlopen loop throws exactly the
error naming the unsupported shorthand. -/
theorem buildBunSymbols_typeKey_msg :
    ∀ (symbols : List (String × SymbolSpec)),
      (∃ p ∈ symbols, p.2.typeKey.isSome = true) →
      (∀ p ∈ symbols, p.2.typeKey.isSome = true ∨
        ((∀ t ∈ p.2.parameters, t ∈ ffiTags) ∧ p.2.result ∈ ffiTags)) →
      buildBunSymbols symbols = .error "Symbol type notation not supported"
  | [], h, _ => absurd h (by simp)
  | (name, symbol) :: rest, h, hclean => by
    by_cases hk : symbol.typeKey.isSome = true
    · simp [buildBunSymbols, hk]
    · have hhd := hclean (name, symbol) (by simp)
      rcases hhd with hhd | ⟨hps, hr⟩
      · exact absurd hhd hk
      obtain ⟨args, hargs, _⟩ := transformParams_ok_of_mem symbol.parameters hps
      obtain ⟨ret, hret⟩ := transformFFIType_ok_of_mem symbol.result hr
      have hrest : ∃ p ∈ rest, p.2.typeKey.isSome = true := by
        rcases h with ⟨p, hp, hps2⟩
        rcases List.mem_cons.mp hp with rfl | hmem
        · exact absurd hps2 hk
        · exact ⟨p, hmem, hps2⟩
      have htail := buildBunSymbols_typeKey_msg rest hrest
        (fun p hp => hclean p (by simp [hp]))
      simp [buildBunSymbols, hk, hargs, hret, htail]

/-- Claim C7: if any entry of the symbols map carries a type key, dlopen
throws for every possible host open primitive — the host library-open
call is never attempted — and with every other entry translating cleanly
the thrown error is the one naming the unsupported shorthand; otherwise,
with all tags in the enumeration, dlopen translates every parameter tag
and every result tag of every entry through transformFFIType and returns
the host library handle unmodified. -/
theorem dlopen_contract (path : String) (symbols : List (String × SymbolSpec)) :
    ((∃ p ∈ symbols, p.2.typeKey.isSome = true) →
      ∃ msg, ∀ (L : Type) (host : String → List (String × BunSymbol) → L),
        dlopenBun host path symbols = .error msg) ∧
    ((∃ p ∈ symbols, p.2.typeKey.isSome = true) →
      (∀ p ∈ symbols, p.2.typeKey.isSome = true ∨
        ((∀ t ∈ p.2.parameters, t ∈ ffiTags) ∧ p.2.result ∈ ffiTags)) →
      ∀ (L : Type) (host : String → List (String × BunSymbol) → L),
        dlopenBun host path symbols = .error "Symbol type notation not supported") ∧
    ((∀ p ∈ symbols, p.2.typeKey = none ∧
        (∀ t ∈ p.2.parameters, t ∈ ffiTags) ∧ p.2.result ∈ ffiTags) →
      ∀ (L : Type) (host : String → List (String × BunSymbol) → L),
        ∃ table, dlopenBun host path symbols = .ok (host path table) ∧
          List.Forall₂ symRel symbols table) := by
  refine ⟨?_, ?_, ?_⟩
  · intro h
    obtain ⟨msg, hmsg⟩ := buildBunSymbols_error_of_typeKey symbols h
    exact ⟨msg, fun L host => by simp [dlopenBun, hmsg]⟩
  · intro h hclean L host
    simp [dlopenBun, buildBunSymbols_typeKey_msg symbols h hclean]
  · intro h L host
    obtain ⟨table, htable, hf⟩ := buildBunSymbols_ok_of_clean symbols h
    exact ⟨table, by simp [dlopenBun, htable], hf⟩

/-- Witness for claim C7: a symbols map whose single entry carries a
type key makes dlopen throw the shorthand error for every host, and a
clean map with one two-parameter entry is translated pointwise and
opened, the host handle (here the pair of path and table) being returned
unmodified. -/
theorem dlopen_contract_w :
    (∀ (L : Type) (host : String → List (String × BunSymbol) → L),
      dlopenBun host "libx.so"
        [("x", { typeKey := some "i32", parameters := [], result := "void" })] =
        .error "Symbol type notation not supported") ∧
    (∃ table,
      dlopenBun (fun p t => (p, t)) "libm.so"
        [("add", { typeKey := none, parameters := ["i32", "i32"], result := "i32" })] =
        .ok ("libm.so", table) ∧
      List.Forall₂ symRel
        [("add", { typeKey := none, parameters := ["i32", "i32"], result := "i32" })] table) :=
  ⟨(dlopen_contract "libx.so"
      [("x", { typeKey := some "i32", parameters := [], result := "void" })]).2.1
      ⟨("x", { typeKey := some "i32", parameters := [], result := "void" }), by simp, rfl⟩
      (by rintro p hp; simp at hp; subst hp; left; rfl),
   (dlopen_contract "libm.so"
      [("add", { typeKey := none, parameters := ["i32", "i32"], result := "i32" })]).2.2
      (by intro p hp; simp at hp; rw [hp]; exact ⟨rfl, by decide, by decide⟩)
      (String × List (String × BunSymbol)) (fun p t => (p, t))⟩

/-- Looking up the key just assigned into an object yields the assigned
value. -/
theorem lookupEnv_setKey_self :
    ∀ (m : List (String × String)) (k v : String),
      lookupEnv (setKey m k v) k = some v
  | [], _, _ => by simp [setKey, lookupEnv]
  | (k0, v0) :: rest, k, v => by
    by_cases h : k0 = k
    · subst h
      simp [setKey, lookupEnv]
    · simp [setKey, lookupEnv, h, lookupEnv_setKey_self rest k v]

/-- Assigning one key leaves the lookup of every other key unchanged. -/
theorem lookupEnv_setKey_ne :
    ∀ (m : List (String × String)) (k v k2 : String), k2 ≠ k →
      lookupEnv (setKey m k v) k2 = lookupEnv m k2
  | [], k, v, k2, h => by simp [setKey, lookupEnv, Ne.symm h]
  | (k0, v0) :: rest, k, v, k2, h => by
    by_cases h0 : k0 = k
    · subst h0
      simp [setKey, lookupEnv, h, Ne.symm h]
    · simp [setKey, lookupEnv, h0, lookupEnv_setKey_ne rest k v k2 h]

/-- A key that no pair of the object carries looks up to nothing. -/
theorem lookupEnv_eq_none_of_not_mem :
    ∀ (m : List (String × String)) (k : String), k ∉ m.map Prod.fst →
      lookupEnv m k = none
  | [], _, _ => rfl
  | (k0, v0) :: rest, k, h => by
    have h1 : k0 ≠ k := by
      rintro rfl
      exact h (by simp)
    have h2 : k ∉ rest.map Prod.fst := fun hc => h (List.mem_cons_of_mem _ hc)
    simp [lookupEnv, h1, lookupEnv_eq_none_of_not_mem rest k h2]

/-- Spreading an override object over a base object leaves every key
outside the override untouched. -/
theorem objectSpread_lookup_not_mem :
    ∀ (over base : List (String × String)) (k : String),
      k ∉ over.map Prod.fst →
      lookupEnv (objectSpread base over) k = lookupEnv base k
  | [], _, _, _ => rfl
  | (k0, v0) :: rest, base, k, h => by
    have h1 : k ≠ k0 := by
      rintro rfl
      exact h (by simp)
    have h2 : k ∉ rest.map Prod.fst := fun hc => h (List.mem_cons_of_mem _ hc)
    calc lookupEnv (objectSpread base ((k0, v0) :: rest)) k
        = lookupEnv (objectSpread (setKey base k0 v0) rest) k := by
          simp [objectSpread]
      _ = lookupEnv (setKey base k0 v0) k :=
          objectSpread_lookup_not_mem rest (setKey base k0 v0) k h2
      _ = lookupEnv base k := lookupEnv_setKey_ne base k0 v0 k h1

/-- Spreading an override object with pairwise distinct keys over a base
object makes every key of the override look up to its override value. -/
theorem objectSpread_lookup_mem :
    ∀ (over base : List (String × String)) (k v : String),
      (over.map Prod.fst).Nodup → lookupEnv over k = some v →
      lookupEnv (objectSpread base over) k = some v
  | [], _, _, _, _, hl => by simp [lookupEnv] at hl
  | (k0, v0) :: rest, base, k, v, hnd, hl => by
    have hstep : objectSpread base ((k0, v0) :: rest) =
        objectSpread (setKey base k0 v0) rest := by
      simp [objectSpread]
    have hnd1 : k0 ∉ rest.map Prod.fst ∧ (rest.map Prod.fst).Nodup :=
      List.nodup_cons.mp hnd
    by_cases hk : k0 = k
    · subst hk
      have hv : v0 = v := by simpa [lookupEnv] using hl
      subst hv
      rw [hstep, objectSpread_lookup_not_mem rest (setKey base k0 v0) k0 hnd1.1,
        lookupEnv_setKey_self base k0 v0]
    · have hnd2 : (rest.map Prod.fst).Nodup := hnd1.2
      have hl2 : lookupEnv rest k = some v := by
        simpa [lookupEnv, hk] using hl
      rw [hstep]
      exact objectSpread_lookup_mem rest (setKey base k0 v0) k v hnd2 hl2

/-- Claim C8: when the options supply environment overrides, the
environment handed to the host spawn call is the full copy of the
current process environment with the overrides spread on top: every
inherited variable whose name the overrides do not mention is present
with its inherited value, and every override takes precedence over the
inherited value. -/
theorem spawn_env_merge (procEnv over : List (String × String))
    (hnd : (over.map Prod.fst).Nodup) :
    spawnEnv procEnv (some over) = some (objectSpread procEnv over) ∧
    (∀ k, k ∉ over.map Prod.fst →
      lookupEnv (objectSpread procEnv over) k = lookupEnv procEnv k) ∧
    (∀ k v, lookupEnv over k = some v →
      lookupEnv (objectSpread procEnv over) k = some v) :=
  ⟨rfl,
   fun k hk => objectSpread_lookup_not_mem over procEnv k hk,
   fun k v hv => objectSpread_lookup_mem over procEnv k v hnd hv⟩

/-- Witness for claim C8: a two-variable process environment with a
single HOME override; PATH survives unchanged and HOME takes the
override value. -/
theorem spawn_env_merge_w :
    spawnEnv [("PATH", "/usr/bin"), ("HOME", "/root")] (some [("HOME", "/tmp")]) =
      some (objectSpread [("PATH", "/usr/bin"), ("HOME", "/root")] [("HOME", "/tmp")]) ∧
    lookupEnv (objectSpread [("PATH", "/usr/bin"), ("HOME", "/root")] [("HOME", "/tmp")])
      "PATH" = lookupEnv [("PATH", "/usr/bin"), ("HOME", "/root")] "PATH" ∧
    lookupEnv (objectSpread [("PATH", "/usr/bin"), ("HOME", "/root")] [("HOME", "/tmp")])
      "HOME" = some "/tmp" := by
  have h := spawn_env_merge [("PATH", "/usr/bin"), ("HOME", "/root")] [("HOME", "/tmp")]
    (by decide)
  exact ⟨h.1, h.2.1 "PATH" (by decide), h.2.2 "HOME" "/tmp" (by decide)⟩
